import Mathlib

/-!
Verification of the MLIR `Operation` node abstraction
(`src/include/mlir/IR/Operation.h`).

The header declares the `Operation` base class, the `OperationState`
construction descriptor, and the indexed-accessor iterator framework.
We embed the data model shallowly:

* `Identifier` is modelled as `String`: the interning authority
  guarantees that identical text yields identity-equal identifiers
  within one context, so string equality coincides with the pointer
  identity the code compares.
* `Attribute *` and `SSAValue *` pointers are modelled as natural
  numbers standing for pointer identities (the code never dereferences
  them in the parts we verify, it only stores and compares them).
* Methods that `Operation.h` only declares (`setAttr`, `removeAttr`,
  `setOperand`, `getNumOperands`, `getOperand`, `getNumResults`,
  `getResult`, `getAttrs`) are defined elsewhere in the repository or
  in each concrete IR form; those are modelled from the spec, and each
  such definition says so in its doc comment.
-/

namespace MlirOp

/-- Interned identifier: identical text maps to the identical
identifier within one context, so identity comparison is string
comparison. -/
abbrev Identifier := String

/-- Models `Attribute *`: an opaque pointer identity. -/
abbrev AttributeRef := Nat

/-- Models `SSAValue *`: an opaque pointer identity. -/
abbrev SSAValueRef := Nat

/-- The `NamedAttribute` typedef from `Operation.h`: a `(name, value)` pair used in
operation attribute lists. -/
abbrev NamedAttribute := Identifier × AttributeRef

/-- The `Operation::OperationKind` enum from `Operation.h`. -/
inductive OperationKind where
  | Instruction
  | Statement
  deriving DecidableEq, Repr

/-- The `Operation::RemoveResult` enum from `Operation.h`. -/
inductive RemoveResult where
  | Removed
  | NotFound
  deriving DecidableEq, Repr

/-- The `Operation` base class.  `nameAndIsInstruction` models the
`llvm::PointerIntPair<Identifier, 1, bool>` field: the first component
is the pointer part (the name), the second the one-bit flag (true iff
the operation is an `OperationInst`).  `attrs` models the attribute
list held behind the `AttributeListStorage *` field.  `operands` and
`results` model the storage that the concrete IR form supplies through
`getNumOperands`/`getOperand`/`setOperand` and
`getNumResults`/`getResult` (spec §6, Concrete IR form). -/
structure Operation where
  nameAndIsInstruction : Identifier × Bool
  attrs : List NamedAttribute
  operands : List SSAValueRef
  results : List SSAValueRef
  deriving DecidableEq, Repr

namespace Operation

/-- Member `Operation::getName`: `nameAndIsInstruction.getPointer()`. -/
def getName (op : Operation) : Identifier :=
  op.nameAndIsInstruction.1

/-- Member `Operation::getOperationKind`: `nameAndIsInstruction.getInt() ?
Instruction : Statement`. -/
def getOperationKind (op : Operation) : OperationKind :=
  if op.nameAndIsInstruction.2 then OperationKind.Instruction
  else OperationKind.Statement

/-- The protected `Operation` constructor: receives the `isInstruction`
flag, the name and the initial attributes; the operand and result
storage is supplied by the concrete IR form (modelled here as extra
arguments). -/
def create (isInstruction : Bool) (name : Identifier)
    (attrs : List NamedAttribute) (operands results : List SSAValueRef) :
    Operation :=
  { nameAndIsInstruction := (name, isInstruction)
    attrs := attrs
    operands := operands
    results := results }

/-- Member `Operation::getAttrs`: returns all attributes.  Modelled from the
spec: the declaration returns the list held in `AttributeListStorage`,
which we store directly as `attrs`. -/
def getAttrs (op : Operation) : List NamedAttribute :=
  op.attrs

/-- The linear scan of `Operation::getAttr(Identifier)`: walk
`getAttrs()`, return the value of the first entry whose name matches,
null (`none`) otherwise. -/
def getAttrList : List NamedAttribute → Identifier → Option AttributeRef
  | [], _ => none
  | elt :: rest, name =>
      if elt.1 = name then some elt.2 else getAttrList rest name

/-- Member `Operation::getAttr(Identifier)`: linear scan over `getAttrs()`,
returning the first matching value or null. -/
def getAttr (op : Operation) (name : Identifier) : Option AttributeRef :=
  getAttrList op.getAttrs name

/-- Modelled from the spec: `Operation::setAttr` is only declared in
`Operation.h`; §4.1 says "replaces the value if `name` exists, else
appends a new entry".  This is the list transformation: replace the
first entry with the given name, or append when absent. -/
def setAttrList : List NamedAttribute → Identifier → AttributeRef →
    List NamedAttribute
  | [], name, value => [(name, value)]
  | elt :: rest, name, value =>
      if elt.1 = name then (name, value) :: rest
      else elt :: setAttrList rest name value

/-- Modelled from the spec: `Operation::setAttr(name, value)` — "If the
an attribute exists with the specified name, change it to the new
value. Otherwise, add a new attribute with the specified name/value." -/
def setAttr (op : Operation) (name : Identifier) (value : AttributeRef) :
    Operation :=
  { op with attrs := setAttrList op.attrs name value }

/-- Modelled from the spec: the list transformation behind
`Operation::removeAttr`, which is only declared in `Operation.h`.
"Remove the attribute with the specified name if it exists.  The return
value indicates whether the attribute was present or not."  The scan
removes the first entry carrying the name and reports `Removed`, or
leaves the list unchanged and reports `NotFound`. -/
def removeAttrList : List NamedAttribute → Identifier →
    List NamedAttribute × RemoveResult
  | [], _ => ([], RemoveResult.NotFound)
  | elt :: rest, name =>
      if elt.1 = name then (rest, RemoveResult.Removed)
      else
        let r := removeAttrList rest name
        (elt :: r.1, r.2)

/-- Modelled from the spec: `Operation::removeAttr(name)`, returning the
mutated operation together with the `RemoveResult`. -/
def removeAttr (op : Operation) (name : Identifier) :
    Operation × RemoveResult :=
  let r := removeAttrList op.attrs name
  ({ op with attrs := r.1 }, r.2)

/-- Number of attribute entries carrying a given name. -/
def attrNameCount (name : Identifier) (attrs : List NamedAttribute) : Nat :=
  attrs.countP (fun elt => elt.1 = name)

/-- Modelled from the spec: `Operation::getNumOperands` is supplied by
the concrete IR form (spec §6); it reports the length of the operand
sequence. -/
def getNumOperands (op : Operation) : Nat :=
  op.operands.length

/-- Modelled from the spec: `Operation::getOperand(idx)` is supplied by
the concrete IR form; out-of-range access is undefined behaviour at
this layer (spec §4.1), modelled as `none`. -/
def getOperand (op : Operation) (idx : Nat) : Option SSAValueRef :=
  op.operands[idx]?

/-- Modelled from the spec: `Operation::setOperand(idx, value)` is
supplied by the concrete IR form; it redirects the operand at `idx` in
place ("individually replaceable in place", spec §3). -/
def setOperand (op : Operation) (idx : Nat) (value : SSAValueRef) :
    Operation :=
  { op with operands := op.operands.set idx value }

/-- Modelled from the spec: `Operation::getNumResults` is supplied by
the concrete IR form. -/
def getNumResults (op : Operation) : Nat :=
  op.results.length

/-- Modelled from the spec: `Operation::getResult(idx)` is supplied by
the concrete IR form; out-of-range access is undefined behaviour,
modelled as `none`. -/
def getResult (op : Operation) (idx : Nat) : Option SSAValueRef :=
  op.results[idx]?

end Operation

/-- The wrapper `OpPointer<OpClass>` holds the `OpClass` value, which itself holds
an `Operation *` that is either the original node or null.  We model
the wrapped pointer as an `Option Operation`, `none` standing for the
null sentinel. -/
structure OpPointer where
  value : Option Operation
  deriving DecidableEq, Repr

/-- The wrapper `ConstOpPointer<OpClass>`: the const-qualified wrapper produced by
the const overload of `getAs`. -/
structure ConstOpPointer where
  value : Option Operation
  deriving DecidableEq, Repr

namespace Operation

/-- Member `Operation::getAs<OpClass>()` (non-const overload): computes
`isMatch = OpClass::isClassFor(this)` and wraps `isMatch ? this :
nullptr` in an `OpPointer`.  The op class is represented by its
`isClassFor` predicate. -/
def getAs (isClassFor : Operation → Bool) (op : Operation) : OpPointer :=
  let isMatch := isClassFor op
  OpPointer.mk (if isMatch then some op else none)

/-- Member `Operation::getAs<OpClass>() const`: the const overload, producing
a `ConstOpPointer` by the same rule. -/
def getAsConst (isClassFor : Operation → Bool) (op : Operation) :
    ConstOpPointer :=
  let isMatch := isClassFor op
  ConstOpPointer.mk (if isMatch then some op else none)

/-- Member `Operation::is<OpClass>()`: returns `OpClass::isClassFor(this)`. -/
def isOfClass (isClassFor : Operation → Bool) (op : Operation) : Bool :=
  isClassFor op

end Operation

/-- The `OperationState` construction descriptor: context, location
and the name plus growable operand/type/attribute lists.  The context
pointer and the location do not matter for the verified claims; the
location is kept as an optional attribute reference. -/
structure OperationState where
  location : Option AttributeRef
  name : Identifier
  operands : List SSAValueRef
  types : List Nat
  attributes : List NamedAttribute
  deriving DecidableEq, Repr

namespace OperationState

/-- Member `OperationState::addOperands`: appends the new operands. -/
def addOperands (st : OperationState) (newOperands : List SSAValueRef) :
    OperationState :=
  { st with operands := st.operands ++ newOperands }

/-- Member `OperationState::addTypes`: appends the new result types. -/
def addTypes (st : OperationState) (newTypes : List Nat) :
    OperationState :=
  { st with types := st.types ++ newTypes }

/-- Member `OperationState::addAttribute(name, attr)`:
`attributes.push_back({Identifier::get(name, context), attr})` — an
unconditional append.  `Identifier::get` interning is the identity on
our string model. -/
def addAttribute (st : OperationState) (name : Identifier)
    (attr : AttributeRef) : OperationState :=
  { st with attributes := st.attributes ++ [(name, attr)] }

end OperationState

/-! ## Accessor iterator framework

`IndexedAccessorIterator` stores a pointer to the owning object and an
`unsigned` (32-bit) index.  The object pointer is modelled by its
identity, a natural number; the index is a natural number kept below
`2^32` by the wrapping arithmetic of the member operators. -/

/-- Conversion of a `ptrdiff_t` to `unsigned` as C++ performs it when
an `unsigned` member is combined with a signed offset: reduction modulo
`2^32`. -/
def toUnsigned32 (k : Int) : Nat :=
  (k % (2 ^ 32 : Int)).toNat

/-- Wrapping 32-bit unsigned subtraction `a - b`. -/
def usub32 (a b : Nat) : Nat :=
  (a + (2 ^ 32 - b % 2 ^ 32)) % 2 ^ 32

/-- The `IndexedAccessorIterator` template: a pointer to the owning object (modelled
by its identity) and an `unsigned` index into it. -/
structure IndexedAccessorIterator where
  object : Nat
  index : Nat
  deriving DecidableEq, Repr

namespace IndexedAccessorIterator

/-- Member `operator==`: `object == rhs.object && index == rhs.index`.  No
assertion: differing owners simply compare unequal. -/
def iterEq (a b : IndexedAccessorIterator) : Bool :=
  a.object == b.object && a.index == b.index

/-- Member `operator<`: `assert(object == rhs.object)` then `index <
rhs.index`.  The assertion failure on differing owners is modelled as
`none`. -/
def iterLt (a b : IndexedAccessorIterator) : Option Bool :=
  if a.object = b.object then some (decide (a.index < b.index)) else none

/-- Member `operator-`: `assert(object == rhs.object)` then `index -
rhs.index`, an `unsigned` subtraction whose wrapped result converts to
`ptrdiff_t`.  The assertion failure is modelled as `none`. -/
def iterSub (a b : IndexedAccessorIterator) : Option Int :=
  if a.object = b.object then some ((usub32 a.index b.index : Nat) : Int)
  else none

/-- Member `operator+=(ptrdiff_t offset)`: `index += offset` — the signed
offset converts to `unsigned` and the addition wraps modulo `2^32`. -/
def iterPlusEq (a : IndexedAccessorIterator) (offset : Int) :
    IndexedAccessorIterator :=
  { a with index := (a.index + toUnsigned32 offset) % 2 ^ 32 }

/-- Member `operator-=(ptrdiff_t offset)`: `index -= offset` — the signed
offset converts to `unsigned` and the subtraction wraps modulo
`2^32`. -/
def iterMinusEq (a : IndexedAccessorIterator) (offset : Int) :
    IndexedAccessorIterator :=
  { a with index := usub32 a.index (toUnsigned32 offset) }

end IndexedAccessorIterator

/-- The loop `for (it = begin; !(it == stop); ++it) out.push_back(*it)`
expressed with the iterator operations: increment is `operator+=(1)`
(via the facade base), dereference calls the by-index accessor `deref`
at the current index.  `fuel` bounds the number of steps so the
function is total. -/
def iterTraverse {α : Type} (deref : Nat → α)
    (stop : IndexedAccessorIterator) :
    IndexedAccessorIterator → Nat → List α
  | _, 0 => []
  | it, fuel + 1 =>
      if IndexedAccessorIterator.iterEq it stop then []
      else deref it.index ::
        iterTraverse deref stop (IndexedAccessorIterator.iterPlusEq it 1) fuel

namespace Operation

/-- Member `Operation::operand_begin()`: `operand_iterator(this, 0)`.  `objId`
is the pointer identity of `this`. -/
def operandBegin (objId : Nat) : IndexedAccessorIterator :=
  ⟨objId, 0⟩

/-- Member `Operation::operand_end()`: `operand_iterator(this,
getNumOperands())`. -/
def operandEnd (op : Operation) (objId : Nat) : IndexedAccessorIterator :=
  ⟨objId, op.getNumOperands⟩

/-- Member `Operation::result_begin()`: `result_iterator(this, 0)`. -/
def resultBegin (objId : Nat) : IndexedAccessorIterator :=
  ⟨objId, 0⟩

/-- Member `Operation::result_end()`: `result_iterator(this,
getNumResults())`. -/
def resultEnd (op : Operation) (objId : Nat) : IndexedAccessorIterator :=
  ⟨objId, op.getNumResults⟩

/-- The element sequence produced by iterating `getOperands()` from
`operand_begin()` to `operand_end()`, dereferencing through
`OperandIterator::operator*`, i.e. `object->getOperand(index)`. -/
def operandRange (op : Operation) (objId : Nat) :
    List (Option SSAValueRef) :=
  iterTraverse op.getOperand (op.operandEnd objId) (operandBegin objId)
    (op.getNumOperands + 1)

/-- The element sequence produced by iterating `getResults()` from
`result_begin()` to `result_end()`, dereferencing through
`ResultIterator::operator*`, i.e. `object->getResult(index)`. -/
def resultRange (op : Operation) (objId : Nat) :
    List (Option SSAValueRef) :=
  iterTraverse op.getResult (op.resultEnd objId) (resultBegin objId)
    (op.getNumResults + 1)

end Operation

/-- A single mutation step through the `Operation` mutating interface:
`setAttr`, `removeAttr` or `setOperand`. -/
inductive Mutation where
  | setAttrM (name : Identifier) (value : AttributeRef)
  | removeAttrM (name : Identifier)
  | setOperandM (idx : Nat) (value : SSAValueRef)
  deriving DecidableEq, Repr

/-- Apply one mutation step to an operation. -/
def applyMutation (op : Operation) : Mutation → Operation
  | Mutation.setAttrM n v => op.setAttr n v
  | Mutation.removeAttrM n => (op.removeAttr n).1
  | Mutation.setOperandM i v => op.setOperand i v

/-- A concrete sample node used to instantiate the verified properties:
an instruction named "add" with operands `3, 4`, one result `5` and one
attribute `("overflow", 7)`. -/
def sampleOp : Operation :=
  Operation.create true "add" [("overflow", 7)] [3, 4] [5]

/-! ## Helper lemmas -/

namespace Operation

theorem getAttrList_setAttrList_self (l : List NamedAttribute)
    (n : Identifier) (v : AttributeRef) :
    getAttrList (setAttrList l n v) n = some v := by
  induction l with
  | nil => simp [setAttrList, getAttrList]
  | cons elt rest ih =>
      by_cases h : elt.1 = n
      · simp [setAttrList, h, getAttrList]
      · simp [setAttrList, h, getAttrList, ih]

theorem attrNameCount_setAttrList (l : List NamedAttribute)
    (n : Identifier) (v : AttributeRef)
    (h : attrNameCount n l ≤ 1) :
    attrNameCount n (setAttrList l n v) = 1 := by
  induction l with
  | nil => simp [setAttrList, attrNameCount]
  | cons elt rest ih =>
      by_cases he : elt.1 = n
      · have h1 : attrNameCount n (elt :: rest) = attrNameCount n rest + 1 := by
          simp [attrNameCount, List.countP_cons, he]
        have h2 : setAttrList (elt :: rest) n v = (n, v) :: rest := by
          simp [setAttrList, he]
        have h3 : attrNameCount n ((n, v) :: rest) =
            attrNameCount n rest + 1 := by
          simp [attrNameCount, List.countP_cons]
        rw [h2, h3]
        omega
      · have h1 : attrNameCount n (elt :: rest) = attrNameCount n rest := by
          simp [attrNameCount, List.countP_cons, he]
        have h2 : setAttrList (elt :: rest) n v =
            elt :: setAttrList rest n v := by
          simp [setAttrList, he]
        have h3 : attrNameCount n (elt :: setAttrList rest n v) =
            attrNameCount n (setAttrList rest n v) := by
          simp [attrNameCount, List.countP_cons, he]
        rw [h2, h3, ih (by omega)]

theorem attrNameCount_eq_zero_iff (l : List NamedAttribute)
    (n : Identifier) :
    attrNameCount n l = 0 ↔ getAttrList l n = none := by
  induction l with
  | nil => simp [attrNameCount, getAttrList]
  | cons elt rest ih =>
      by_cases he : elt.1 = n
      · simp [attrNameCount, List.countP_cons, he, getAttrList]
      · simp [attrNameCount, List.countP_cons, he, getAttrList] at ih ⊢
        exact ih

theorem removeAttrList_not_found (l : List NamedAttribute)
    (n : Identifier) (h : getAttrList l n = none) :
    removeAttrList l n = (l, RemoveResult.NotFound) := by
  induction l with
  | nil => simp [removeAttrList]
  | cons elt rest ih =>
      by_cases he : elt.1 = n
      · simp [getAttrList, he] at h
      · simp [getAttrList, he] at h
        simp [removeAttrList, he, ih h]

theorem removeAttrList_found (l : List NamedAttribute)
    (n : Identifier) (h : getAttrList l n ≠ none) :
    (removeAttrList l n).2 = RemoveResult.Removed ∧
    attrNameCount n (removeAttrList l n).1 + 1 = attrNameCount n l := by
  induction l with
  | nil => simp [getAttrList] at h
  | cons elt rest ih =>
      by_cases he : elt.1 = n
      · simp [removeAttrList, he, attrNameCount, List.countP_cons]
      · have h4 := ih (by simpa [getAttrList, he] using h)
        have h2 : removeAttrList (elt :: rest) n =
            (elt :: (removeAttrList rest n).1, (removeAttrList rest n).2) := by
          simp [removeAttrList, he]
        have h3 : attrNameCount n (elt :: (removeAttrList rest n).1) =
            attrNameCount n (removeAttrList rest n).1 := by
          simp [attrNameCount, List.countP_cons, he]
        have h5 : attrNameCount n (elt :: rest) = attrNameCount n rest := by
          simp [attrNameCount, List.countP_cons, he]
        rw [h2]
        refine ⟨h4.1, ?_⟩
        simp only [h3, h5]
        exact h4.2

theorem toUnsigned32_one : toUnsigned32 1 = 1 := by
  norm_num [toUnsigned32]

theorem iterPlusEq_one (o i n : Nat) (hi : i < n) (hn : n < 2 ^ 32) :
    IndexedAccessorIterator.iterPlusEq ⟨o, i⟩ 1 = ⟨o, i + 1⟩ := by
  simp only [IndexedAccessorIterator.iterPlusEq, toUnsigned32_one]
  congr 1
  exact Nat.mod_eq_of_lt (by omega)

theorem iterTraverse_range_aux {α : Type} (deref : Nat → α) (o n : Nat)
    (hn : n < 2 ^ 32) :
    ∀ fuel i, i ≤ n → n - i ≤ fuel →
    iterTraverse deref ⟨o, n⟩ ⟨o, i⟩ fuel =
      (List.range' i (n - i)).map deref := by
  intro fuel
  induction fuel with
  | zero =>
      intro i hi hf
      have h0 : n - i = 0 := by omega
      simp [iterTraverse, h0]
  | succ fuel ih =>
      intro i hi hf
      by_cases hin : i = n
      · subst hin
        simp [iterTraverse, IndexedAccessorIterator.iterEq]
      · have hlt : i < n := lt_of_le_of_ne hi hin
        have heq : IndexedAccessorIterator.iterEq ⟨o, i⟩ ⟨o, n⟩ = false := by
          simp [IndexedAccessorIterator.iterEq, hin]
        have hstep : n - i = (n - (i + 1)) + 1 := by omega
        simp only [iterTraverse, heq, Bool.false_eq_true, if_false,
          iterPlusEq_one o i n hlt hn]
        rw [ih (i + 1) (by omega) (by omega), hstep, List.range'_succ]
        simp

theorem applyMutation_nameAndIsInstruction (op : Operation)
    (m : Mutation) :
    (applyMutation op m).nameAndIsInstruction = op.nameAndIsInstruction := by
  cases m <;> rfl

theorem foldl_applyMutation_nameAndIsInstruction (ms : List Mutation) :
    ∀ op : Operation,
    (ms.foldl applyMutation op).nameAndIsInstruction =
      op.nameAndIsInstruction := by
  induction ms with
  | nil => intro op; rfl
  | cons m rest ih =>
      intro op
      rw [List.foldl_cons, ih, applyMutation_nameAndIsInstruction]

end Operation

/-! ## The claims -/

/-- C1: on a node satisfying the documented attribute invariant (at most
one entry per name), `setAttr(n, v)` followed immediately by
`getAttr(n)` returns `v`, and after two `setAttr` calls with the same
name `n`, `getAttrs()` contains at most one entry whose name is `n`. -/
theorem claim_C1 (op : Operation) (n : Identifier)
    (v v₁ v₂ : AttributeRef)
    (hinv : Operation.attrNameCount n op.getAttrs ≤ 1) :
    (op.setAttr n v).getAttr n = some v ∧
    Operation.attrNameCount n
      ((op.setAttr n v₁).setAttr n v₂).getAttrs ≤ 1 := by
  have hinv' : Operation.attrNameCount n op.attrs ≤ 1 := hinv
  constructor
  · exact Operation.getAttrList_setAttrList_self op.attrs n v
  · have h1 := Operation.attrNameCount_setAttrList op.attrs n v₁ hinv'
    have h2 := Operation.attrNameCount_setAttrList
      (Operation.setAttrList op.attrs n v₁) n v₂ (by omega)
    show Operation.attrNameCount n
      (Operation.setAttrList (Operation.setAttrList op.attrs n v₁) n v₂) ≤ 1
    omega

/-- Witness for C1 at the sample node. -/
theorem claim_C1_witness :
    (sampleOp.setAttr "overflow" 3).getAttr "overflow" = some 3 ∧
    Operation.attrNameCount "overflow"
      ((sampleOp.setAttr "overflow" 3).setAttr "overflow" 4).getAttrs ≤ 1 :=
  claim_C1 sampleOp "overflow" 3 3 4 (by decide)

/-- C2: `getOperationKind()` is derived from the one-bit flag fixed at
construction and is unchanged by any sequence of `setAttr`,
`removeAttr` or `setOperand` mutations. -/
theorem claim_C2 (isInstruction : Bool) (name : Identifier)
    (attrs : List NamedAttribute) (operands results : List SSAValueRef)
    (ms : List Mutation) :
    (ms.foldl applyMutation
        (Operation.create isInstruction name attrs
          operands results)).getOperationKind =
      (if isInstruction then OperationKind.Instruction
       else OperationKind.Statement) := by
  rw [Operation.getOperationKind,
    Operation.foldl_applyMutation_nameAndIsInstruction]
  rfl

/-- C3: `getAs<OpClass>()` wraps the original node when
`OpClass::isClassFor` accepts it and wraps the null sentinel when the
predicate rejects it, both for the non-const overload (`OpPointer`) and
the const overload (`ConstOpPointer`); it never fails in any other
way. -/
theorem claim_C3 (isClassFor : Operation → Bool) (op : Operation) :
    (isClassFor op = true →
      op.getAs isClassFor = OpPointer.mk (some op) ∧
      op.getAsConst isClassFor = ConstOpPointer.mk (some op)) ∧
    (isClassFor op = false →
      op.getAs isClassFor = OpPointer.mk none ∧
      op.getAsConst isClassFor = ConstOpPointer.mk none) := by
  constructor <;> intro h <;>
    simp [Operation.getAs, Operation.getAsConst, h]

/-- Witness for C3: an accepting and a rejecting predicate at the
sample node. -/
theorem claim_C3_witness :
    sampleOp.getAs (fun o => o.getName == "add") =
      OpPointer.mk (some sampleOp) ∧
    sampleOp.getAs (fun o => o.getName == "mul") = OpPointer.mk none :=
  ⟨((claim_C3 (fun o => o.getName == "add") sampleOp).1 (by decide)).1,
   ((claim_C3 (fun o => o.getName == "mul") sampleOp).2 (by decide)).1⟩

/-- C4 (amended): equality compares both the owning-object identity and
the index and returns `false` — a normal result, no assertion — when
the owners differ; the ordering comparison `<` and the iterator
difference `-` assert that the owners match, failing on differing
owners, and otherwise compare/subtract the indices. -/
theorem claim_C4 (a b : IndexedAccessorIterator) :
    (IndexedAccessorIterator.iterEq a b = true ↔
      a.object = b.object ∧ a.index = b.index) ∧
    (a.object = b.object →
      IndexedAccessorIterator.iterLt a b =
        some (decide (a.index < b.index)) ∧
      IndexedAccessorIterator.iterSub a b =
        some ((usub32 a.index b.index : Nat) : Int)) ∧
    (a.object ≠ b.object →
      IndexedAccessorIterator.iterLt a b = none ∧
      IndexedAccessorIterator.iterSub a b = none) := by
  refine ⟨?_, fun h => ?_, fun h => ?_⟩
  · simp [IndexedAccessorIterator.iterEq]
  · simp [IndexedAccessorIterator.iterLt, IndexedAccessorIterator.iterSub, h]
  · simp [IndexedAccessorIterator.iterLt, IndexedAccessorIterator.iterSub, h]

/-- Counterexample to C4 as stated: comparing two iterators whose
owning objects differ (identities 0 and 1) through `operator==` does
not trigger an assertion failure — it returns the recoverable result
`false`; only `<` and `-` assert. -/
theorem claim_C4_counterexample :
    IndexedAccessorIterator.iterEq ⟨0, 5⟩ ⟨1, 5⟩ = false ∧
    IndexedAccessorIterator.iterLt ⟨0, 5⟩ ⟨1, 5⟩ = none ∧
    IndexedAccessorIterator.iterSub ⟨0, 5⟩ ⟨1, 5⟩ = none := by
  refine ⟨rfl, rfl, rfl⟩

/-- Witness for C4 at concrete iterators with equal and with differing
owners. -/
theorem claim_C4_witness :
    IndexedAccessorIterator.iterLt ⟨2, 1⟩ ⟨2, 3⟩ = some true ∧
    IndexedAccessorIterator.iterLt ⟨2, 1⟩ ⟨3, 3⟩ = none := by
  have h1 := (claim_C4 ⟨2, 1⟩ ⟨2, 3⟩).2.1 rfl
  have h2 := (claim_C4 ⟨2, 1⟩ ⟨3, 3⟩).2.2 (by decide)
  exact ⟨by simpa using h1.1, h2.1⟩

/-- C5: on a node satisfying the attribute invariant, if the attribute
`n` is present then `removeAttr(n)` returns `Removed` once, and a
subsequent call with the same name returns `NotFound` and leaves the
node unchanged; no exception is raised (both calls are total). -/
theorem claim_C5 (op : Operation) (n : Identifier)
    (hinv : Operation.attrNameCount n op.getAttrs ≤ 1)
    (hpres : op.getAttr n ≠ none) :
    (op.removeAttr n).2 = RemoveResult.Removed ∧
    ((op.removeAttr n).1.removeAttr n).2 = RemoveResult.NotFound ∧
    ((op.removeAttr n).1.removeAttr n).1 = (op.removeAttr n).1 := by
  have hinv' : Operation.attrNameCount n op.attrs ≤ 1 := hinv
  have hpres' : Operation.getAttrList op.attrs n ≠ none := hpres
  have hf := Operation.removeAttrList_found op.attrs n hpres'
  have hc0 : Operation.attrNameCount n
      (Operation.removeAttrList op.attrs n).1 = 0 := by omega
  have hg := (Operation.attrNameCount_eq_zero_iff
    (Operation.removeAttrList op.attrs n).1 n).mp hc0
  have hnf := Operation.removeAttrList_not_found
    (Operation.removeAttrList op.attrs n).1 n hg
  refine ⟨hf.1, ?_, ?_⟩
  · show (Operation.removeAttrList
      (Operation.removeAttrList op.attrs n).1 n).2 = RemoveResult.NotFound
    rw [hnf]
  · show ({ (op.removeAttr n).1 with
        attrs := (Operation.removeAttrList
          (Operation.removeAttrList op.attrs n).1 n).1 } : Operation) =
      (op.removeAttr n).1
    rw [hnf]
    rfl

/-- Witness for C5 at the sample node. -/
theorem claim_C5_witness :
    (sampleOp.removeAttr "overflow").2 = RemoveResult.Removed ∧
    ((sampleOp.removeAttr "overflow").1.removeAttr "overflow").2 =
      RemoveResult.NotFound ∧
    ((sampleOp.removeAttr "overflow").1.removeAttr "overflow").1 =
      (sampleOp.removeAttr "overflow").1 :=
  claim_C5 sampleOp "overflow" (by decide) (by decide)

/-- C6: iterating from `operand_begin()` to `operand_end()` through the
accessor iterator framework yields exactly `getNumOperands()` elements,
the `i`-th dereferencing to `getOperand(i)`; the same holds for results
with `getNumResults()` and `getResult(i)`.  The counts are below `2^32`
because the code reports them as `unsigned`. -/
theorem claim_C6 (op : Operation) (objId : Nat)
    (ho : op.getNumOperands < 2 ^ 32) (hr : op.getNumResults < 2 ^ 32) :
    op.operandRange objId =
      (List.range op.getNumOperands).map op.getOperand ∧
    (op.operandRange objId).length = op.getNumOperands ∧
    (∀ i, i < op.getNumOperands →
      (op.operandRange objId)[i]? = some (op.getOperand i)) ∧
    op.resultRange objId =
      (List.range op.getNumResults).map op.getResult ∧
    (op.resultRange objId).length = op.getNumResults ∧
    (∀ i, i < op.getNumResults →
      (op.resultRange objId)[i]? = some (op.getResult i)) := by
  have h1 := Operation.iterTraverse_range_aux op.getOperand objId
    op.getNumOperands ho (op.getNumOperands + 1) 0 (Nat.zero_le _)
    (by omega)
  have h2 := Operation.iterTraverse_range_aux op.getResult objId
    op.getNumResults hr (op.getNumResults + 1) 0 (Nat.zero_le _)
    (by omega)
  have ho1 : op.operandRange objId =
      (List.range op.getNumOperands).map op.getOperand := by
    show iterTraverse op.getOperand ⟨objId, op.getNumOperands⟩ ⟨objId, 0⟩
      (op.getNumOperands + 1) = _
    rw [h1, List.range_eq_range']
    simp
  have hr1 : op.resultRange objId =
      (List.range op.getNumResults).map op.getResult := by
    show iterTraverse op.getResult ⟨objId, op.getNumResults⟩ ⟨objId, 0⟩
      (op.getNumResults + 1) = _
    rw [h2, List.range_eq_range']
    simp
  refine ⟨ho1, by simp [ho1], fun i hi => ?_, hr1, by simp [hr1],
    fun i hi => ?_⟩
  · rw [ho1, List.getElem?_map, List.getElem?_range hi]
    rfl
  · rw [hr1, List.getElem?_map, List.getElem?_range hi]
    rfl

/-- Witness for C6 at the sample node (two operands, one result). -/
theorem claim_C6_witness :
    sampleOp.operandRange 0 = [some 3, some 4] ∧
    sampleOp.resultRange 0 = [some 5] := by
  have h := claim_C6 sampleOp 0 (by decide) (by decide)
  refine ⟨?_, ?_⟩
  · rw [h.1]; decide
  · rw [h.2.2.2.1]; decide

/-- C7: for an in-range index, `setOperand(idx, v)` followed by
`getOperand(idx)` returns `v`, and `getOperand(j)` is unchanged for
every other index `j`. -/
theorem claim_C7 (op : Operation) (idx : Nat) (v : SSAValueRef)
    (h : idx < op.getNumOperands) :
    (op.setOperand idx v).getOperand idx = some v ∧
    ∀ j, j ≠ idx →
      (op.setOperand idx v).getOperand j = op.getOperand j := by
  constructor
  · show (op.operands.set idx v)[idx]? = some v
    exact List.getElem?_set_self h
  · intro j hj
    show (op.operands.set idx v)[j]? = op.operands[j]?
    exact List.getElem?_set_ne (fun he => hj he.symm)

/-- Witness for C7 at the sample node: replace operand 0, operand 1 is
untouched. -/
theorem claim_C7_witness :
    (sampleOp.setOperand 0 9).getOperand 0 = some 9 ∧
    (sampleOp.setOperand 0 9).getOperand 1 = sampleOp.getOperand 1 :=
  ⟨(claim_C7 sampleOp 0 9 (by decide)).1,
   (claim_C7 sampleOp 0 9 (by decide)).2 1 (by decide)⟩

/-- C8: `is<OpClass>()` returns exactly `OpClass::isClassFor(this)`,
and is therefore true precisely when `getAs<OpClass>()` yields a
wrapper holding a non-null pointer. -/
theorem claim_C8 (isClassFor : Operation → Bool) (op : Operation) :
    op.isOfClass isClassFor = isClassFor op ∧
    (op.isOfClass isClassFor = true ↔
      (op.getAs isClassFor).value ≠ none) := by
  refine ⟨rfl, ?_⟩
  by_cases h : isClassFor op <;>
    simp [Operation.isOfClass, Operation.getAs, h]

/-- C9: `OperationState::addAttribute` appends unconditionally: two
calls with the same name add two entries carrying that name to the
`attributes` list, with no replacement or deduplication. -/
theorem claim_C9 (st : OperationState) (n : Identifier)
    (a b : AttributeRef) :
    ((st.addAttribute n a).addAttribute n b).attributes =
      st.attributes ++ [(n, a), (n, b)] ∧
    Operation.attrNameCount n
        ((st.addAttribute n a).addAttribute n b).attributes =
      Operation.attrNameCount n st.attributes + 2 := by
  constructor
  · simp [OperationState.addAttribute]
  · simp [OperationState.addAttribute, Operation.attrNameCount,
      List.countP_append, List.countP_cons]

/-- C10: `operator+=`/`operator-=` convert the signed offset to
`unsigned` and wrap modulo `2^32`: from index `i` the resulting index
is `(i + k) mod 2^32` (resp. `(i - k) mod 2^32`), so stepping below
index 0 wraps around rather than failing; the owning object is
untouched. -/
theorem claim_C10 (a : IndexedAccessorIterator) (k : Int)
    (_h : a.index < 2 ^ 32) :
    (((a.iterPlusEq k).index : Nat) : Int) =
      ((a.index : Int) + k) % 2 ^ 32 ∧
    (((a.iterMinusEq k).index : Nat) : Int) =
      ((a.index : Int) - k) % 2 ^ 32 ∧
    (a.iterPlusEq k).object = a.object ∧
    (a.iterMinusEq k).object = a.object := by
  have hnn : (0 : Int) ≤ k % 2 ^ 32 :=
    Int.emod_nonneg k (by norm_num)
  have hu : ((toUnsigned32 k : Nat) : Int) = k % 2 ^ 32 := by
    simp only [toUnsigned32]
    exact Int.toNat_of_nonneg hnn
  have hult : toUnsigned32 k < 2 ^ 32 := by
    have hlt := Int.emod_lt_of_pos k (show (0 : Int) < 2 ^ 32 by norm_num)
    simp only [toUnsigned32]
    omega
  refine ⟨?_, ?_, rfl, rfl⟩
  · show (((a.index + toUnsigned32 k) % 2 ^ 32 : Nat) : Int) = _
    push_cast
    omega
  · show ((usub32 a.index (toUnsigned32 k) : Nat) : Int) = _
    simp only [usub32, Nat.mod_eq_of_lt hult]
    push_cast [Nat.cast_sub (le_of_lt hult)]
    omega

/-- Witness for C10: stepping the begin iterator (index 0) down by one
wraps to `2^32 - 1`. -/
theorem claim_C10_witness :
    (IndexedAccessorIterator.iterMinusEq ⟨0, 0⟩ 1).index = 4294967295 := by
  have h := (claim_C10 ⟨0, 0⟩ 1 (by norm_num)).2.1
  simp only [IndexedAccessorIterator.index] at h ⊢
  omega

end MlirOp
